import Mathlib

/-!
Verification of the HD44780 LCD driver / button input module
(`avr/lcd_and_input.c`) of the Hardware BitCoin wallet.

The C module is shallowly embedded: each piece of mutable module state
(`current_column`, `max_line_size`, `scroll_pos`, `scroll_to_left`,
`scroll_counter`, the two button channels, and the transaction staging
store) becomes a field of an explicit state record, and each C function
becomes a Lean function on those records.  Machine integers are modelled
as `Nat` with an explicit `% 2^w` where the C code can overflow (the
8-bit debounce counters and the 16-bit scroll countdown).  The byte-level
transport to the display chip (`write4`/`write8` and the delay calls) has
no observable state of its own and is omitted; what the driver shows is
tracked through the cursor/scroll state and through an explicit log of
rendered screens.
-/

/-- Number of columns per line (`NUM_COLUMNS`). -/
def NUM_COLUMNS : Nat := 16

/-- Scroll speed in 5 ms ticks (`SCROLL_SPEED`). -/
def SCROLL_SPEED : Nat := 150

/-- Scroll pause length in 5 ms ticks (`SCROLL_PAUSE`). -/
def SCROLL_PAUSE : Nat := 450

/-- Number of consistent samples required to register a button press
(`DEBOUNCE_COUNT`). -/
def DEBOUNCE_COUNT : Nat := 8

/-- Maximum number of address/amount pairs kept for approval
(`MAX_OUTPUTS`). -/
def MAX_OUTPUTS : Nat := 2

/-- The display/scroll state of the driver: the static variables
`current_column`, `max_line_size`, `scroll_pos`, `scroll_to_left` and
`scroll_counter` of `lcd_and_input.c`.  All counters are `Nat`; the
16-bit wrap of `scroll_counter` is applied where the C code decrements. -/
structure LcdState where
  current_column : Nat
  max_line_size : Nat
  scroll_pos : Nat
  scroll_to_left : Bool
  scroll_counter : Nat
deriving DecidableEq, Repr

/-- State left by `clearLcd()`: cursor and scroll state reset, countdown
restarted at `SCROLL_SPEED`.  This is also the state established at the
end of `initLcdAndInput()` (which finishes with a `clearLcd()` call). -/
def clearLcdState : LcdState :=
  { current_column := 0
    max_line_size := 0
    scroll_pos := 0
    scroll_to_left := false
    scroll_counter := SCROLL_SPEED }

/-- The scrolling half of `ISR(TIMER0_COMPA_vect)`: decrement the 16-bit
countdown (wrapping); when it hits zero and the widest line overflows the
visible width, move the scroll position one column in the current
direction, flipping the direction at either boundary instead of moving;
then restart the countdown. -/
def scrollTick (st : LcdState) : LcdState :=
  let c := (st.scroll_counter + 65535) % 65536
  if c = 0 then
    if NUM_COLUMNS < st.max_line_size then
      if st.scroll_to_left then
        if st.scroll_pos = 0 then
          { st with scroll_to_left := false, scroll_counter := SCROLL_SPEED }
        else
          { st with scroll_pos := st.scroll_pos - 1, scroll_counter := SCROLL_SPEED }
      else
        if st.scroll_pos = st.max_line_size - NUM_COLUMNS then
          { st with scroll_to_left := true, scroll_counter := SCROLL_SPEED }
        else
          { st with scroll_pos := st.scroll_pos + 1, scroll_counter := SCROLL_SPEED }
    else
      { st with scroll_counter := SCROLL_SPEED }
  else
    { st with scroll_counter := c }

/-- `gotoStartOfLine(line)`: position the hardware cursor at the start of
a line and reset `current_column`; `max_line_size` is untouched. -/
def gotoStartOfLine (_line : Nat) (st : LcdState) : LcdState :=
  { st with current_column := 0 }

/-- The character loop of `writeString()`: emit characters while the
string has not ended and `current_column < 40`; each emitted character
advances `current_column` and raises `max_line_size` to the new column
when it exceeds it.  Returns the updated state together with the
characters actually emitted (characters past column 40 are dropped). -/
def writeChars (st : LcdState) : List Char → LcdState × List Char
  | [] => (st, [])
  | c :: rest =>
    if st.current_column < 40 then
      let st1 : LcdState :=
        { st with
          current_column := st.current_column + 1
          max_line_size := max st.max_line_size (st.current_column + 1) }
      let r := writeChars st1 rest
      (r.1, c :: r.2)
    else
      (st, [])

/-- `writeString()`: emit the characters (see `writeChars`) and then set
the scroll countdown to `SCROLL_PAUSE`. -/
def writeStringLcd (st : LcdState) (s : List Char) : LcdState × List Char :=
  let r := writeChars st s
  ({ r.1 with scroll_counter := SCROLL_PAUSE }, r.2)

/-- One button channel: a debounced state (`accept_button` or
`cancel_button`) together with its 8-bit debounce counter
(`accept_debounce` / `cancel_debounce`). -/
structure ButtonChannel where
  btn : Bool
  ctr : Nat
deriving DecidableEq, Repr

/-- Channel state established by `initLcdAndInput()`: not pressed,
counter zero. -/
def initChannel : ButtonChannel := ⟨false, 0⟩

/-- The buttons are wired active-low: `setArduinoPinInput` enables the
internal pull-up, so the raw pin reads high exactly when the button is
not pressed.  `pressedSample` converts a sampled pin level into the
logical "button is pressed" value. -/
def pressedSample (pinHigh : Bool) : Bool := !pinHigh

/-- The debounce half of `ISR(TIMER0_COMPA_vect)` for one channel, fed
the sampled pin level (`temp` in the C code).  The guard
`(btn && temp) || (!btn && !temp)` holds exactly when the logical sample
disagrees with the debounced state (the source comment: "Mismatching
state"); then the 8-bit counter is incremented (wrapping), and when it
lands exactly on `DEBOUNCE_COUNT` the debounced state is flipped — the
counter itself is not reset by the flip.  An agreeing sample resets the
counter to zero. -/
def debounceStep (s : ButtonChannel) (pinHigh : Bool) : ButtonChannel :=
  if (s.btn && pinHigh) || (!s.btn && !pinHigh) then
    let c := (s.ctr + 1) % 256
    if c = DEBOUNCE_COUNT then ⟨!s.btn, c⟩ else ⟨s.btn, c⟩
  else
    ⟨s.btn, 0⟩

/-- Channel state after `n` timer ticks, fed the stream `pins` of sampled
pin levels, starting from the freshly initialised channel. -/
def stateAt (pins : Nat → Bool) : Nat → ButtonChannel
  | 0 => initChannel
  | n + 1 => debounceStep (stateAt pins n) (pins n)

/-- Full state owned by the timer interrupt: display/scroll state plus
the two button channels. -/
structure IsrState where
  lcd : LcdState
  accept : ButtonChannel
  cancel : ButtonChannel
deriving DecidableEq, Repr

/-- One firing of `ISR(TIMER0_COMPA_vect)`: the scroll step followed by
the two independent debounce steps, fed the two sampled pin levels. -/
def isrTick (st : IsrState) (acceptPinHigh cancelPinHigh : Bool) : IsrState :=
  { lcd := scrollTick st.lcd
    accept := debounceStep st.accept acceptPinHigh
    cancel := debounceStep st.cancel cancelPinHigh }

/-- ISR state established by `initLcdAndInput()`. -/
def initIsrState : IsrState := ⟨clearLcdState, initChannel, initChannel⟩

/-- ISR state after `n` timer ticks fed the two pin-level streams. -/
def isrRun (pa pc : Nat → Bool) : Nat → IsrState
  | 0 => initIsrState
  | n + 1 => isrTick (isrRun pa pc n) (pa n) (pc n)

/-- Foreground operations that touch the display state, for stating
invariants over arbitrary interleavings with timer ticks. -/
inductive LcdOp where
  | tick
  | clear
  | gotoLine (line : Nat)
  | write (s : List Char)
deriving DecidableEq, Repr

/-- Effect of one operation on the display state. -/
def lcdStep (st : LcdState) : LcdOp → LcdState
  | .tick => scrollTick st
  | .clear => clearLcdState
  | .gotoLine l => gotoStartOfLine l st
  | .write s => (writeStringLcd st s).1

/-- Display state after a sequence of operations, starting from the
freshly initialised (cleared) display. -/
def runLcd (ops : List LcdOp) : LcdState :=
  ops.foldl lcdStep clearLcdState

/-- The scroll-position invariant: when the widest line fits in the
visible width the position is pinned at 0, and otherwise it never passes
`max_line_size - NUM_COLUMNS`. -/
def scrollInvariant (st : LcdState) : Prop :=
  (st.max_line_size ≤ NUM_COLUMNS → st.scroll_pos = 0) ∧
  (NUM_COLUMNS < st.max_line_size →
    st.scroll_pos + NUM_COLUMNS ≤ st.max_line_size)

instance (st : LcdState) : Decidable (scrollInvariant st) := by
  unfold scrollInvariant; infer_instance

/-- The transaction staging store: the static arrays `list_amount` and
`list_address` (modelled as total maps from slot index to stored text,
so that slots past `list_index` keep their stale contents exactly as in
the C arrays), the shared `list_index`, and the fee state.  A stored C
string of buffer length `L` holds at most `L - 1` characters plus the
terminator, so stored texts are the source texts truncated to one less
than the buffer length. -/
structure StagingState where
  list_amount : Nat → List Char
  list_address : Nat → List Char
  list_index : Nat
  transaction_fee_set : Bool
  transaction_fee_amount : List Char

/-- The staging store with nothing staged (all slots blank), as after
`initLcdAndInput()` and `clearOutputsSeen()`. -/
def emptyStaging : StagingState :=
  { list_amount := fun _ => []
    list_address := fun _ => []
    list_index := 0
    transaction_fee_set := false
    transaction_fee_amount := [] }

/-- Modelled from the spec: the buffer sizes `TEXT_AMOUNT_LENGTH` and
`TEXT_ADDRESS_LENGTH` are defined in `hwinterface.h`, which is not part
of the sources here; the spec says only that staged strings are
"truncated to fixed maximum lengths with guaranteed null-termination",
so the two buffer lengths are kept as parameters (`amtLen`, `addrLen`)
of the staging operations.

`newOutputSeen(text_amount, text_address)`: fail (returning `true`)
without mutating anything when the store is full, otherwise copy the two
strings into slot `list_index` — truncated by `strncpy` plus the forced
terminator at index `len - 1`, hence to `len - 1` characters — advance
`list_index` and return `false`. -/
def newOutputSeen (amtLen addrLen : Nat) (st : StagingState)
    (text_amount text_address : List Char) : Bool × StagingState :=
  if MAX_OUTPUTS ≤ st.list_index then
    (true, st)
  else
    (false,
      { st with
        list_amount := fun i =>
          if i = st.list_index then text_amount.take (amtLen - 1)
          else st.list_amount i
        list_address := fun i =>
          if i = st.list_index then text_address.take (addrLen - 1)
          else st.list_address i
        list_index := st.list_index + 1 })

/-- `setTransactionFee(text_amount)`: store the truncated fee text and
mark the fee as set.  (See `newOutputSeen` for the modelling of
`TEXT_AMOUNT_LENGTH`.) -/
def setTransactionFee (amtLen : Nat) (st : StagingState)
    (text_amount : List Char) : StagingState :=
  { st with
    transaction_fee_amount := text_amount.take (amtLen - 1)
    transaction_fee_set := true }

/-- `clearOutputsSeen()`: drop the staged outputs and unset the fee. -/
def clearOutputsSeen (st : StagingState) : StagingState :=
  { st with list_index := 0, transaction_fee_set := false }

/-- The staged records actually visible to the review loop: slots
`0 .. list_index - 1` in staging order. -/
def stagedRecords (stg : StagingState) : List (List Char × List Char) :=
  (List.range stg.list_index).map fun i => (stg.list_amount i, stg.list_address i)

/-- `waitForButtonPress()`: poll the two debounced flags — modelled as
time-indexed streams, both flags being read in the same poll iteration,
matching the snapshot copies `current_accept_button` and
`current_cancel_button` — until at least one reads true, then return
`false` when the snapshotted accept flag is true and `true` otherwise.
Termination needs some poll to succeed, which is the hypothesis `h`. -/
def waitForButtonPress (acc can : Nat → Bool)
    (h : ∃ t, (acc t || can t) = true) : Bool :=
  if acc (Nat.find h) then false else true

/-- First line of the nuke-wallet prompt (`str_delete_line0`). -/
def str_delete_line0 : List Char := "Delete existing wallet".toList

/-- Second line of the nuke-wallet prompt (`str_delete_line1`). -/
def str_delete_line1 : List Char := "and start a new one?".toList

/-- First line of the new-address prompt (`str_new_line0`). -/
def str_new_line0 : List Char := "Create new".toList

/-- Second line of the new-address prompt (`str_new_line1`). -/
def str_new_line1 : List Char := "address?".toList

/-- Text prepended to output amounts (`str_sign_part0`). -/
def str_sign_part0 : List Char := "Sending ".toList

/-- Text appended to output amounts (`str_sign_part1`). -/
def str_sign_part1 : List Char := " BTC to".toList

/-- Text prepended to the fee amount (`str_fee_part0`). -/
def str_fee_part0 : List Char := "Transaction fee:".toList

/-- Text appended to the fee amount (`str_fee_part1`). -/
def str_fee_part1 : List Char := " BTC".toList

/-- First line of the format prompt (`str_format_line0`). -/
def str_format_line0 : List Char := "Do you want to".toList

/-- Second line of the format prompt (`str_format_line1`). -/
def str_format_line1 : List Char := "delete everything?".toList

/-- First line of the change-name prompt (`str_change_name_line0`). -/
def str_change_name_line0 : List Char := "Change the name".toList

/-- Second line of the change-name prompt (`str_change_name_line1`). -/
def str_change_name_line1 : List Char := "of your wallet?".toList

/-- First line of the backup-wallet prompt (`str_backup_line0`). -/
def str_backup_line0 : List Char := "Do you want to do".toList

/-- Second line of the backup-wallet prompt (`str_backup_line1`). -/
def str_backup_line1 : List Char := "a wallet backup?".toList

/-- First line of the restore-wallet prompt (`str_restore_line0`). -/
def str_restore_line0 : List Char := "Restore wallet".toList

/-- Second line of the restore-wallet prompt (`str_restore_line1`). -/
def str_restore_line1 : List Char := "from backup?".toList

/-- First line of the change-key prompt (`str_change_key_line0`). -/
def str_change_key_line0 : List Char := "Change the key".toList

/-- Second line of the change-key prompt (`str_change_key_line1`). -/
def str_change_key_line1 : List Char := "of your wallet?".toList

/-- First line of the get-master-key prompt (`str_get_master_key_line0`). -/
def str_get_master_key_line0 : List Char := "Reveal master".toList

/-- Second line of the get-master-key prompt (`str_get_master_key_line1`). -/
def str_get_master_key_line1 : List Char := "public key?".toList

/-- First line of the unknown-command notice (`str_unknown_line0`). -/
def str_unknown_line0 : List Char := "Unknown command in userDenied()".toList

/-- Second line of the unknown-command notice (`str_unknown_line1`). -/
def str_unknown_line1 : List Char := "Press any button to continue".toList

/-- First line of the backup encrypted-or-not notice
(`str_seed_encrypted_or_not_line0`). -/
def str_seed_encrypted_or_not_line0 : List Char := "Backup is".toList

/-- Second line of the notice when the backup is encrypted
(`str_seed_encrypted_line1`). -/
def str_seed_encrypted_line1 : List Char := "encrypted".toList

/-- Second line of the notice when the backup is not encrypted
(`str_seed_not_encrypted_line1`). -/
def str_seed_not_encrypted_line1 : List Char := "not encrypted".toList

/-- One rendered screen (or, for the seed dump, one rendered fragment),
logged in order of appearance.  `output` is one "Sending <amount> BTC to"
/ address review screen, `fee` the transaction-fee screen, `prompt` one
of the fixed two-line prompts, `seedNotice` the encrypted-or-not notice,
`hexWrite` one `writeString` call of the hex dump, and `newPage` the
clear that starts a fresh hex page. -/
inductive Screen where
  | prompt (line0 line1 : List Char)
  | output (amount address : List Char)
  | fee (amount : List Char)
  | seedNotice (is_encrypted : Bool)
  | hexWrite (chars : List Char)
  | newPage
deriving DecidableEq, Repr

/-- Modelled from the spec: the enumeration `AskUserCommandEnum` lives in
`hwinterface.h`, which is not part of the sources here; the nine command
tags below are the ones `userDenied()` dispatches on, and `other` stands
for every remaining enumeration value (the final `else` branch). -/
inductive AskUserCommand where
  | nukeWallet
  | newAddress
  | signTransaction
  | format
  | changeName
  | backupWallet
  | restoreWallet
  | changeKey
  | getMasterKey
  | other
deriving DecidableEq, Repr

/-- Cursor/scroll effect of rendering one fixed two-line prompt:
`gotoStartOfLine(0); writeString(l0); gotoStartOfLine(1);
writeString(l1)`. -/
def renderPrompt (l0 l1 : List Char) (st : LcdState) : LcdState :=
  let st := gotoStartOfLine 0 st
  let st := (writeStringLcd st l0).1
  let st := gotoStartOfLine 1 st
  (writeStringLcd st l1).1

/-- Cursor/scroll effect of rendering one output-review screen:
`gotoStartOfLine(0); writeString(str_sign_part0); writeString(amount);
writeString(str_sign_part1); gotoStartOfLine(1); writeString(address)`. -/
def renderOutputScreen (amount address : List Char) (st : LcdState) : LcdState :=
  let st := gotoStartOfLine 0 st
  let st := (writeStringLcd st str_sign_part0).1
  let st := (writeStringLcd st amount).1
  let st := (writeStringLcd st str_sign_part1).1
  let st := gotoStartOfLine 1 st
  (writeStringLcd st address).1

/-- Cursor/scroll effect of rendering the fee screen:
`gotoStartOfLine(0); writeString(str_fee_part0); gotoStartOfLine(1);
writeString(fee_amount); writeString(str_fee_part1)`. -/
def renderFeeScreen (fee_amount : List Char) (st : LcdState) : LcdState :=
  let st := gotoStartOfLine 0 st
  let st := (writeStringLcd st str_fee_part0).1
  let st := gotoStartOfLine 1 st
  let st := (writeStringLcd st fee_amount).1
  (writeStringLcd st str_fee_part1).1

/-- Result of a `userDenied()` call: the returned verdict (`true` =
denied), the display state on return, the screens rendered, and how many
button presses were consumed. -/
structure UserDeniedResult where
  denied : Bool
  lcd : LcdState
  screens : List Screen
  presses_used : Nat
deriving DecidableEq, Repr

/-- The per-output review loop of the sign-transaction branch of
`userDenied()`.  `r` carries the C variable `r` (initially `true`); each
iteration clears the display, renders one output screen, and takes one
button press; a denying press breaks out of the loop immediately.
Presses are modelled as the stream `presses` (press number `k` is the
result of the `k`-th `waitForButtonPress()` of this `userDenied()` call,
`true` = cancel), mirroring that each `waitForButtonPress()` consumes
exactly one press. -/
def signLoop (presses : Nat → Bool) :
    List (List Char × List Char) → LcdState → List Screen → Nat → Bool →
    Bool × LcdState × List Screen × Nat
  | [], lcd, scr, k, r => (r, lcd, scr, k)
  | (amt, addr) :: rest, _lcd, scr, k, _ =>
    let lcd := clearLcdState
    let lcd := renderOutputScreen amt addr lcd
    let scr := scr ++ [Screen.output amt addr]
    if presses k then (true, lcd, scr, k + 1)
    else signLoop presses rest lcd scr (k + 1) false

/-- `userDenied(command)`: clear the display, dispatch on the command —
the sign-transaction branch runs the output-review loop and then shows
the fee screen only when the loop left `r` false and a fee is set; the
other known commands render one fixed prompt and take one press; any
unrecognised command renders the unknown-command notice, consumes one
press and denies unconditionally — then clear the display again and
return the verdict. -/
def userDenied (command : AskUserCommand) (stg : StagingState)
    (presses : Nat → Bool) (_lcd0 : LcdState) : UserDeniedResult :=
  let lcd := clearLcdState
  let core : UserDeniedResult :=
    match command with
    | .nukeWallet =>
      ⟨presses 0, renderPrompt str_delete_line0 str_delete_line1 lcd,
        [Screen.prompt str_delete_line0 str_delete_line1], 1⟩
    | .newAddress =>
      ⟨presses 0, renderPrompt str_new_line0 str_new_line1 lcd,
        [Screen.prompt str_new_line0 str_new_line1], 1⟩
    | .signTransaction =>
      let t := signLoop presses (stagedRecords stg) lcd [] 0 true
      if !t.1 && stg.transaction_fee_set then
        let lcd := clearLcdState
        let lcd := renderFeeScreen stg.transaction_fee_amount lcd
        ⟨presses t.2.2.2, lcd,
          t.2.2.1 ++ [Screen.fee stg.transaction_fee_amount], t.2.2.2 + 1⟩
      else
        ⟨t.1, t.2.1, t.2.2.1, t.2.2.2⟩
    | .format =>
      ⟨presses 0, renderPrompt str_format_line0 str_format_line1 lcd,
        [Screen.prompt str_format_line0 str_format_line1], 1⟩
    | .changeName =>
      ⟨presses 0, renderPrompt str_change_name_line0 str_change_name_line1 lcd,
        [Screen.prompt str_change_name_line0 str_change_name_line1], 1⟩
    | .backupWallet =>
      ⟨presses 0, renderPrompt str_backup_line0 str_backup_line1 lcd,
        [Screen.prompt str_backup_line0 str_backup_line1], 1⟩
    | .restoreWallet =>
      ⟨presses 0, renderPrompt str_restore_line0 str_restore_line1 lcd,
        [Screen.prompt str_restore_line0 str_restore_line1], 1⟩
    | .changeKey =>
      ⟨presses 0, renderPrompt str_change_key_line0 str_change_key_line1 lcd,
        [Screen.prompt str_change_key_line0 str_change_key_line1], 1⟩
    | .getMasterKey =>
      ⟨presses 0, renderPrompt str_get_master_key_line0 str_get_master_key_line1 lcd,
        [Screen.prompt str_get_master_key_line0 str_get_master_key_line1], 1⟩
    | .other =>
      ⟨true, renderPrompt str_unknown_line0 str_unknown_line1 lcd,
        [Screen.prompt str_unknown_line0 str_unknown_line1], 1⟩
  { core with lcd := clearLcdState }

/-- `nibbleToHex(nibble)`: hexadecimal character of the low 4 bits. -/
def nibbleToHex (nibble : Nat) : Char :=
  let temp := nibble % 16
  if temp < 10 then Char.ofNat ('0'.toNat + temp)
  else Char.ofNat ('a'.toNat + (temp - 10))

/-- The three-character buffer `str` of `writeBackupSeed()` for one seed
byte: a padding space, then the two hex digits (`one_byte >> 4` and
`one_byte`). -/
def hexByteStr (b : Nat) : List Char :=
  [' ', nibbleToHex (b / 16), nibbleToHex b]

/-- Result of a `writeBackupSeed()` call: the returned failure flag, the
display state on return, the screens rendered, and how many button
presses were consumed. -/
structure BackupResult where
  failed : Bool
  lcd : LcdState
  screens : List Screen
  presses_used : Nat
deriving DecidableEq, Repr

/-- Cursor/scroll effect plus screen log of rendering one seed byte at
on-screen position `bc` (`byte_counter`): go to the start of line 0 at
position 0 and of line 1 at position 6, then write `" xx"` at even
positions and `"xx"` (no leading space) at odd ones. -/
def renderSeedByte (b : Nat) (bc : Nat) (lcd : LcdState)
    (scr : List Screen) : LcdState × List Screen :=
  let lcd :=
    if bc = 0 then gotoStartOfLine 0 lcd
    else if bc = 6 then gotoStartOfLine 1 lcd
    else lcd
  let toWrite := if bc % 2 = 0 then hexByteStr b else (hexByteStr b).drop 1
  ((writeStringLcd lcd toWrite).1, scr ++ [Screen.hexWrite toWrite])

/-- The seed loop of `writeBackupSeed()`: for each seed byte, when
`byte_counter` has reached 12 first require a button press (a cancelling
press clears the display and aborts with failure), clear the display for
the new page and restart `byte_counter` at 0; then render the byte (see
`renderSeedByte`).  Returns (aborted?, display state, screens, next
press index). -/
def backupLoop (presses : Nat → Bool) :
    List Nat → Nat → Nat → LcdState → List Screen →
    Bool × LcdState × List Screen × Nat
  | [], _, k, lcd, scr => (false, lcd, scr, k)
  | b :: rest, bc, k, lcd, scr =>
    if bc = 12 then
      if presses k then (true, clearLcdState, scr, k + 1)
      else
        let lcd := clearLcdState
        let scr := scr ++ [Screen.newPage]
        let t := renderSeedByte b 0 lcd scr
        backupLoop presses rest 1 (k + 1) t.1 t.2
    else
      let t := renderSeedByte b bc lcd scr
      backupLoop presses rest (bc + 1) k t.1 t.2

/-- `writeBackupSeed(seed, is_encrypted, destination_device)`: any
destination other than 0 fails immediately with no display activity;
otherwise show the encrypted-or-not notice (a cancelling press aborts
with failure before any seed byte is shown), dump the seed in hex pages
of 12 bytes with a confirming press between pages (see `backupLoop`),
and require one final confirming press; every exit path but the
unsupported-destination one clears the display.

Modelled from the spec: `SEED_LENGTH` is defined in `hwinterface.h`,
which is not part of the sources here; the seed is modelled as a byte
list whose length plays the role of `SEED_LENGTH` (the claims under
review instantiate it with 16). -/
def writeBackupSeed (seed : List Nat) (is_encrypted : Bool)
    (destination_device : Nat) (presses : Nat → Bool)
    (lcd0 : LcdState) : BackupResult :=
  if destination_device ≠ 0 then
    ⟨true, lcd0, [], 0⟩
  else
    let lcd := clearLcdState
    let lcd := gotoStartOfLine 0 lcd
    let lcd := (writeStringLcd lcd str_seed_encrypted_or_not_line0).1
    let lcd := gotoStartOfLine 1 lcd
    let lcd :=
      if is_encrypted then (writeStringLcd lcd str_seed_encrypted_line1).1
      else (writeStringLcd lcd str_seed_not_encrypted_line1).1
    let scr := [Screen.seedNotice is_encrypted]
    if presses 0 then ⟨true, clearLcdState, scr, 1⟩
    else
      let t := backupLoop presses seed 0 1 lcd scr
      if t.1 then ⟨true, t.2.1, t.2.2.1, t.2.2.2⟩
      else if presses t.2.2.2 then ⟨true, clearLcdState, t.2.2.1, t.2.2.2 + 1⟩
      else ⟨false, clearLcdState, t.2.2.1, t.2.2.2 + 1⟩

/-- The expected hex-dump log of one page of seed bytes, `byte_counter`
starting at 0 within the page: `" xx"` at even positions, `"xx"` at odd
ones. -/
def pageWrites : List Nat → Nat → List Screen
  | [], _ => []
  | b :: rest, bc =>
    Screen.hexWrite (if bc % 2 = 0 then hexByteStr b else (hexByteStr b).drop 1) ::
      pageWrites rest (bc + 1)

/-- C9: `writeBackupSeed` called with any destination_device value other
than 0 returns true (failure) immediately, performing no display
operation and leaving the display, cursor, and scroll state unchanged. -/
theorem c9_backup_bad_destination (seed : List Nat) (is_encrypted : Bool)
    (destination_device : Nat) (presses : Nat → Bool) (lcd0 : LcdState)
    (h : destination_device ≠ 0) :
    writeBackupSeed seed is_encrypted destination_device presses lcd0 =
      ⟨true, lcd0, [], 0⟩ := by
  simp [writeBackupSeed, h]

/-- Witness for `c9_backup_bad_destination` at destination 1. -/
theorem c9_backup_bad_destination_witness :
    writeBackupSeed [0, 1, 2] true 1 (fun _ => false) clearLcdState =
      ⟨true, clearLcdState, [], 0⟩ :=
  c9_backup_bad_destination [0, 1, 2] true 1 (fun _ => false) clearLcdState
    (by decide)

/-- C10: for every command tag and every sequence of button presses,
`userDenied` clears the display immediately before returning, so on
return `current_column = 0`, `max_line_size = 0`, the scroll position is
0, and the scroll direction and countdown are back at their initial
(non-scrolling) values. -/
theorem c10_userDenied_clears_display (command : AskUserCommand)
    (stg : StagingState) (presses : Nat → Bool) (lcd0 : LcdState) :
    (userDenied command stg presses lcd0).lcd = clearLcdState ∧
    (userDenied command stg presses lcd0).lcd.current_column = 0 ∧
    (userDenied command stg presses lcd0).lcd.max_line_size = 0 ∧
    (userDenied command stg presses lcd0).lcd.scroll_pos = 0 ∧
    (userDenied command stg presses lcd0).lcd.scroll_to_left = false ∧
    (userDenied command stg presses lcd0).lcd.scroll_counter = SCROLL_SPEED :=
  ⟨rfl, rfl, rfl, rfl, rfl, rfl⟩

/-- C8: `writeBackupSeed` with a 16-byte secret and destination 0: after
the encrypted-or-not notice is approved, exactly two pages of hex are
rendered (the first showing bytes 0–11, the second — after a `newPage`
clear guarded by one confirming press — showing bytes 12–15), and one
final confirming press follows, for 3 presses in total; cancelling at
the first page's confirmation (press number 1) renders no further pages
and makes the call return true, while approving every checkpoint makes
it return false. -/
theorem c8_backup_sixteen_bytes
    (b0 b1 b2 b3 b4 b5 b6 b7 b8 b9 b10 b11 b12 b13 b14 b15 : Nat)
    (is_encrypted : Bool) (lcd0 : LcdState) :
    writeBackupSeed
        [b0, b1, b2, b3, b4, b5, b6, b7, b8, b9, b10, b11, b12, b13, b14, b15]
        is_encrypted 0 (fun _ => false) lcd0 =
      ⟨false, clearLcdState,
        Screen.seedNotice is_encrypted ::
          (pageWrites [b0, b1, b2, b3, b4, b5, b6, b7, b8, b9, b10, b11] 0 ++
            Screen.newPage :: pageWrites [b12, b13, b14, b15] 0), 3⟩ ∧
    writeBackupSeed
        [b0, b1, b2, b3, b4, b5, b6, b7, b8, b9, b10, b11, b12, b13, b14, b15]
        is_encrypted 0 (fun n => decide (n = 1)) lcd0 =
      ⟨true, clearLcdState,
        Screen.seedNotice is_encrypted ::
          pageWrites [b0, b1, b2, b3, b4, b5, b6, b7, b8, b9, b10, b11] 0, 2⟩ := by
  cases is_encrypted <;>
    simp [writeBackupSeed, backupLoop, renderSeedByte, pageWrites]

/-- Staging store used as the C1 counterexample: no outputs staged but a
transaction fee set. -/
def c1Staging : StagingState :=
  { emptyStaging with
    transaction_fee_set := true
    transaction_fee_amount := "0.01".toList }

/-- C1 counterexample: with zero staged outputs and a transaction fee
set, even when the user approves every prompt `userDenied` returns
denied and renders no screen at all — in particular the fee screen is
never shown, so its button result cannot override the default to
approved. -/
theorem c1_counterexample :
    (userDenied .signTransaction c1Staging (fun _ => false) clearLcdState).denied
        = true ∧
    (userDenied .signTransaction c1Staging (fun _ => false) clearLcdState).screens
        = [] := by
  decide

/-- C1 (amended): when `userDenied` is called with the sign-transaction
command and zero outputs are staged (`list_index = 0`), the per-output
loop is skipped and the result is unconditionally denied; the fee screen
is not shown even when a transaction fee is set (the fee screen requires
the loop to have left `r` false, but the skipped loop leaves it true),
and no button press is consumed. -/
theorem c1_zero_outputs_amended (stg : StagingState) (presses : Nat → Bool)
    (lcd0 : LcdState) (h : stg.list_index = 0) :
    (userDenied .signTransaction stg presses lcd0).denied = true ∧
    (userDenied .signTransaction stg presses lcd0).screens = [] ∧
    (userDenied .signTransaction stg presses lcd0).presses_used = 0 := by
  simp [userDenied, stagedRecords, h, signLoop]

/-- Witness for `c1_zero_outputs_amended` at the empty staging store. -/
theorem c1_zero_outputs_amended_witness :
    (userDenied .signTransaction emptyStaging (fun _ => true) clearLcdState).denied
        = true ∧
    (userDenied .signTransaction emptyStaging (fun _ => true) clearLcdState).screens
        = [] :=
  let h := c1_zero_outputs_amended emptyStaging (fun _ => true) clearLcdState rfl
  ⟨h.1, h.2.1⟩

/-- If every press the review loop will consume is an approval, the loop
reviews every record, returns `false`, logs one output screen per record
in order, and consumes one press per record. -/
theorem signLoop_all_approve (presses : Nat → Bool)
    (l : List (List Char × List Char)) (lcd : LcdState) (scr : List Screen)
    (k : Nat) (r : Bool) (hl : l ≠ [])
    (hp : ∀ j, j < l.length → presses (k + j) = false) :
    (signLoop presses l lcd scr k r).1 = false ∧
    (signLoop presses l lcd scr k r).2.2.1 =
      scr ++ l.map (fun p => Screen.output p.1 p.2) ∧
    (signLoop presses l lcd scr k r).2.2.2 = k + l.length := by
  induction l generalizing lcd scr k r with
  | nil => exact absurd rfl hl
  | cons hd rest ih =>
    obtain ⟨amt, addr⟩ := hd
    have hk : presses k = false := by
      have := hp 0 (by simp)
      simpa using this
    rcases Decidable.em (rest = []) with hrest | hrest
    · subst hrest
      simp [signLoop, hk]
    · have hp' : ∀ j, j < rest.length → presses (k + 1 + j) = false := by
        intro j hj
        have := hp (j + 1) (by simp; omega)
        simpa [Nat.add_assoc, Nat.add_comm 1 j] using this
      have := ih (clearLcdState |> renderOutputScreen amt addr)
        (scr ++ [Screen.output amt addr]) (k + 1) false hrest hp'
      simp only [signLoop, hk, Bool.false_eq_true, if_false]
      refine ⟨this.1, ?_, ?_⟩
      · rw [this.2.1]; simp
      · rw [this.2.2]; simp; omega

/-- If press number `k + m` is the first denial the review loop meets,
the loop stops right there: it returns `true`, logs exactly the output
screens of the first `m + 1` records, and consumes `m + 1` presses. -/
theorem signLoop_first_deny (presses : Nat → Bool)
    (l : List (List Char × List Char)) (lcd : LcdState) (scr : List Screen)
    (k : Nat) (r : Bool) (m : Nat) (hm : m < l.length)
    (hd : presses (k + m) = true) (hp : ∀ j, j < m → presses (k + j) = false) :
    (signLoop presses l lcd scr k r).1 = true ∧
    (signLoop presses l lcd scr k r).2.2.1 =
      scr ++ (l.take (m + 1)).map (fun p => Screen.output p.1 p.2) ∧
    (signLoop presses l lcd scr k r).2.2.2 = k + m + 1 := by
  induction l generalizing lcd scr k r m with
  | nil => simp at hm
  | cons hd0 rest ih =>
    obtain ⟨amt, addr⟩ := hd0
    cases m with
    | zero =>
      have hk : presses k = true := by simpa using hd
      simp [signLoop, hk]
    | succ m' =>
      have hk : presses k = false := by
        have := hp 0 (by omega)
        simpa using this
      have hd' : presses (k + 1 + m') = true := by
        have : k + 1 + m' = k + (m' + 1) := by omega
        rw [this]; exact hd
      have hp' : ∀ j, j < m' → presses (k + 1 + j) = false := by
        intro j hj
        have := hp (j + 1) (by omega)
        have e : k + 1 + j = k + (j + 1) := by omega
        rw [e]; exact this
      have hm' : m' < rest.length := by simp at hm; omega
      have := ih (clearLcdState |> renderOutputScreen amt addr)
        (scr ++ [Screen.output amt addr]) (k + 1) false m' hm' hd' hp'
      simp only [signLoop, hk, Bool.false_eq_true, if_false]
      refine ⟨this.1, ?_, ?_⟩
      · rw [this.2.1]; simp [List.take_succ_cons]
      · rw [this.2.2]; omega

/-- The review loop sees `list_index` records. -/
theorem stagedRecords_length (stg : StagingState) :
    (stagedRecords stg).length = stg.list_index := by
  simp [stagedRecords]

/-- Screens of the first `m` staged records, in staging order. -/
theorem stagedRecords_screens (stg : StagingState) (m : Nat)
    (hm : m ≤ stg.list_index) :
    ((stagedRecords stg).take m).map (fun p => Screen.output p.1 p.2) =
      (List.range m).map
        (fun j => Screen.output (stg.list_amount j) (stg.list_address j)) := by
  rw [stagedRecords, ← List.map_take, List.take_range, List.map_map]
  have h : m ⊓ stg.list_index = m := by omega
  rw [h]
  rfl

/-- Unfolding of the sign-transaction branch of `userDenied`: run the
review loop, then the fee screen exactly when the loop left `r` false
and a fee is set; either way the display is cleared on return. -/
theorem userDenied_sign_eq (stg : StagingState) (presses : Nat → Bool)
    (lcd0 : LcdState) :
    userDenied .signTransaction stg presses lcd0 =
      if !(signLoop presses (stagedRecords stg) clearLcdState [] 0 true).1 &&
          stg.transaction_fee_set then
        ⟨presses (signLoop presses (stagedRecords stg) clearLcdState [] 0 true).2.2.2,
          clearLcdState,
          (signLoop presses (stagedRecords stg) clearLcdState [] 0 true).2.2.1 ++
            [Screen.fee stg.transaction_fee_amount],
          (signLoop presses (stagedRecords stg) clearLcdState [] 0 true).2.2.2 + 1⟩
      else
        ⟨(signLoop presses (stagedRecords stg) clearLcdState [] 0 true).1,
          clearLcdState,
          (signLoop presses (stagedRecords stg) clearLcdState [] 0 true).2.2.1,
          (signLoop presses (stagedRecords stg) clearLcdState [] 0 true).2.2.2⟩ := by
  simp only [userDenied]
  split <;> rfl

/-- C4: in the sign-transaction flow of `userDenied`, outputs are
reviewed in staging order and the first denied output terminates the
loop immediately with overall result denied and no fee screen shown
(even if a fee is set); if every staged output is approved and a fee is
set, one fee screen is shown after the output screens and its press
result becomes the overall outcome (so a denied fee screen means overall
denied). -/
theorem c4_sign_transaction_flow (stg : StagingState) (presses : Nat → Bool)
    (lcd0 : LcdState) :
    (∀ i, i < stg.list_index → presses i = true →
      (∀ j, j < i → presses j = false) →
      (userDenied .signTransaction stg presses lcd0).denied = true ∧
      (userDenied .signTransaction stg presses lcd0).screens =
        (List.range (i + 1)).map
          (fun j => Screen.output (stg.list_amount j) (stg.list_address j)) ∧
      (∀ a, Screen.fee a ∉ (userDenied .signTransaction stg presses lcd0).screens))
  ∧ (0 < stg.list_index → (∀ j, j < stg.list_index → presses j = false) →
      stg.transaction_fee_set = true →
      (userDenied .signTransaction stg presses lcd0).denied =
        presses stg.list_index ∧
      (userDenied .signTransaction stg presses lcd0).screens =
        (List.range stg.list_index).map
          (fun j => Screen.output (stg.list_amount j) (stg.list_address j)) ++
          [Screen.fee stg.transaction_fee_amount] ∧
      (userDenied .signTransaction stg presses lcd0).presses_used =
        stg.list_index + 1) := by
  constructor
  · intro i hi hdeny hprev
    have hm : i < (stagedRecords stg).length := by
      rw [stagedRecords_length]; exact hi
    have hL := signLoop_first_deny presses (stagedRecords stg) clearLcdState []
      0 true i hm (by simpa using hdeny) (fun j hj => by simpa using hprev j hj)
    have hscr : ((stagedRecords stg).take (i + 1)).map
        (fun p => Screen.output p.1 p.2) =
        (List.range (i + 1)).map
          (fun j => Screen.output (stg.list_amount j) (stg.list_address j)) :=
      stagedRecords_screens stg (i + 1) (by omega)
    have hscreens : (userDenied .signTransaction stg presses lcd0).screens =
        (List.range (i + 1)).map
          (fun j => Screen.output (stg.list_amount j) (stg.list_address j)) := by
      rw [userDenied_sign_eq, hL.1, hL.2.1]
      simp only [Bool.not_true, Bool.false_and, Bool.false_eq_true, if_false,
        List.nil_append]
      exact hscr
    refine ⟨?_, hscreens, ?_⟩
    · rw [userDenied_sign_eq, hL.1]
      simp
    · intro a
      rw [hscreens]
      simp [List.mem_map]
  · intro hn hall hfee
    have hl : stagedRecords stg ≠ [] :=
      List.ne_nil_of_length_pos (by rw [stagedRecords_length]; exact hn)
    have hL := signLoop_all_approve presses (stagedRecords stg) clearLcdState []
      0 true hl (fun j hj => by
        have hj' : j < stg.list_index := by rwa [stagedRecords_length] at hj
        simpa using hall j hj')
    have htake : (stagedRecords stg).take stg.list_index = stagedRecords stg := by
      have h := List.take_length (stagedRecords stg)
      rwa [stagedRecords_length] at h
    have hscr : (stagedRecords stg).map (fun p => Screen.output p.1 p.2) =
        (List.range stg.list_index).map
          (fun j => Screen.output (stg.list_amount j) (stg.list_address j)) := by
      have h := stagedRecords_screens stg stg.list_index (le_refl _)
      rwa [htake] at h
    refine ⟨?_, ?_, ?_⟩
    · rw [userDenied_sign_eq, hL.1, hL.2.2, hfee]
      simp [stagedRecords_length]
    · rw [userDenied_sign_eq, hL.1, hL.2.1, hfee]
      simp only [Bool.not_false, Bool.true_and, if_true, List.nil_append]
      rw [hscr]
    · rw [userDenied_sign_eq, hL.1, hL.2.2, hfee]
      simp [stagedRecords_length]

/-- Staging store with two records, used to exercise the C4 theorem. -/
def c4Staging : StagingState :=
  { emptyStaging with
    list_amount := fun i => if i = 0 then "1.23".toList else "4.56".toList
    list_address := fun i => if i = 0 then "addrone".toList else "addrtwo".toList
    list_index := 2
    transaction_fee_set := true
    transaction_fee_amount := "0.01".toList }

/-- Witness for `c4_sign_transaction_flow`: two staged outputs with a fee
set; denying the second output denies the transaction, and approving
both outputs but denying the fee screen also denies it. -/
theorem c4_sign_transaction_flow_witness :
    (userDenied .signTransaction c4Staging (fun n => decide (n = 1))
        clearLcdState).denied = true ∧
    (userDenied .signTransaction c4Staging (fun n => decide (n = 2))
        clearLcdState).denied = true := by
  constructor
  · have hprev : ∀ j, j < 1 → (fun n => decide (n = 1)) j = false := by
      intro j hj
      have hj0 : j = 0 := Nat.lt_one_iff.mp hj
      subst hj0; rfl
    exact ((c4_sign_transaction_flow c4Staging (fun n => decide (n = 1))
      clearLcdState).1 1 (by decide) (by decide) hprev).1
  · have hall : ∀ j, j < c4Staging.list_index →
        (fun n => decide (n = 2)) j = false := by
      intro j hj
      have hj2 : j < 2 := hj
      rcases j with _ | _ | j
      · rfl
      · rfl
      · omega
    have h := (c4_sign_transaction_flow c4Staging (fun n => decide (n = 2))
      clearLcdState).2 (by decide) hall (by decide)
    exact h.1.trans (by decide)

/-- C5: `newOutputSeen` at capacity returns `true` and leaves the whole
store unchanged; below capacity it returns `false` and appends copies of
the two strings truncated to the fixed maximum lengths (one less than
each buffer length, because of the forced terminator), leaving every
other slot and the fee state untouched; consequently, after three calls
starting from the empty store the third call fails, leaves the store as
it was, and exactly the first `MAX_OUTPUTS` inputs are stored. -/
theorem c5_newOutputSeen (amtLen addrLen : Nat) (st : StagingState)
    (a b a1 d1 a2 d2 a3 d3 : List Char) :
    (MAX_OUTPUTS ≤ st.list_index →
      newOutputSeen amtLen addrLen st a b = (true, st))
  ∧ (st.list_index < MAX_OUTPUTS →
      (newOutputSeen amtLen addrLen st a b).1 = false ∧
      (newOutputSeen amtLen addrLen st a b).2.list_index = st.list_index + 1 ∧
      (newOutputSeen amtLen addrLen st a b).2.list_amount st.list_index =
        a.take (amtLen - 1) ∧
      (newOutputSeen amtLen addrLen st a b).2.list_address st.list_index =
        b.take (addrLen - 1) ∧
      (∀ i, i ≠ st.list_index →
        (newOutputSeen amtLen addrLen st a b).2.list_amount i =
          st.list_amount i ∧
        (newOutputSeen amtLen addrLen st a b).2.list_address i =
          st.list_address i) ∧
      (newOutputSeen amtLen addrLen st a b).2.transaction_fee_set =
        st.transaction_fee_set ∧
      (newOutputSeen amtLen addrLen st a b).2.transaction_fee_amount =
        st.transaction_fee_amount)
  ∧ ((newOutputSeen amtLen addrLen emptyStaging a1 d1).1 = false ∧
      (newOutputSeen amtLen addrLen
        (newOutputSeen amtLen addrLen emptyStaging a1 d1).2 a2 d2).1 = false ∧
      (newOutputSeen amtLen addrLen
        (newOutputSeen amtLen addrLen
          (newOutputSeen amtLen addrLen emptyStaging a1 d1).2 a2 d2).2
        a3 d3).1 = true ∧
      (newOutputSeen amtLen addrLen
        (newOutputSeen amtLen addrLen
          (newOutputSeen amtLen addrLen emptyStaging a1 d1).2 a2 d2).2
        a3 d3).2 =
        (newOutputSeen amtLen addrLen
          (newOutputSeen amtLen addrLen emptyStaging a1 d1).2 a2 d2).2 ∧
      (newOutputSeen amtLen addrLen
        (newOutputSeen amtLen addrLen emptyStaging a1 d1).2 a2 d2).2.list_index
        = MAX_OUTPUTS ∧
      (newOutputSeen amtLen addrLen
        (newOutputSeen amtLen addrLen emptyStaging a1 d1).2 a2 d2).2.list_amount
        0 = a1.take (amtLen - 1) ∧
      (newOutputSeen amtLen addrLen
        (newOutputSeen amtLen addrLen emptyStaging a1 d1).2 a2 d2).2.list_address
        0 = d1.take (addrLen - 1) ∧
      (newOutputSeen amtLen addrLen
        (newOutputSeen amtLen addrLen emptyStaging a1 d1).2 a2 d2).2.list_amount
        1 = a2.take (amtLen - 1) ∧
      (newOutputSeen amtLen addrLen
        (newOutputSeen amtLen addrLen emptyStaging a1 d1).2 a2 d2).2.list_address
        1 = d2.take (addrLen - 1)) := by
  refine ⟨?_, ?_, ?_⟩
  · intro h
    simp [newOutputSeen, h]
  · intro h
    have h' : ¬ MAX_OUTPUTS ≤ st.list_index := by omega
    refine ⟨?_, ?_, ?_, ?_, ?_, ?_, ?_⟩
    · simp [newOutputSeen, h']
    · simp [newOutputSeen, h']
    · simp [newOutputSeen, h']
    · simp [newOutputSeen, h']
    · intro i hi
      constructor
      · simp [newOutputSeen, h', hi]
      · simp [newOutputSeen, h', hi]
    · simp [newOutputSeen, h']
    · simp [newOutputSeen, h']
  · refine ⟨?_, ?_, ?_, ?_, ?_, ?_, ?_, ?_, ?_⟩ <;>
      simp [newOutputSeen, emptyStaging, MAX_OUTPUTS]

/-- Staging store already holding `MAX_OUTPUTS` records. -/
def c5FullStaging : StagingState := { emptyStaging with list_index := 2 }

/-- Witness for `c5_newOutputSeen`: a call on a full store fails and
leaves it unchanged, a call on the empty store succeeds. -/
theorem c5_newOutputSeen_witness :
    newOutputSeen 22 36 c5FullStaging "9.99".toList "addr".toList =
      (true, c5FullStaging) ∧
    (newOutputSeen 22 36 emptyStaging "9.99".toList "addr".toList).1 = false := by
  constructor
  · exact (c5_newOutputSeen 22 36 c5FullStaging "9.99".toList "addr".toList
      [] [] [] [] [] []).1 (by decide)
  · exact ((c5_newOutputSeen 22 36 emptyStaging "9.99".toList "addr".toList
      [] [] [] [] [] []).2.1 (by decide)).1

/-- C7 counterexample: when both debounced flags are observed true at the
same poll (both buttons held), the loop stops anyway — it does not keep
polling for "exactly one" flag — and `waitForButtonPress` returns false
(approve) even though the snapshotted cancel flag is true, contradicting
"returns true (deny) if the snapshotted cancel flag is true". -/
theorem c7_counterexample :
    waitForButtonPress (fun _ => true) (fun _ => true) ⟨0, rfl⟩ = false ∧
    (fun _ : Nat => true)
      (Nat.find (⟨0, rfl⟩ :
        ∃ t, ((fun _ : Nat => true) t || (fun _ : Nat => true) t) = true)) =
      true := by
  exact ⟨rfl, rfl⟩

/-- C7 (amended): `waitForButtonPress` polls until at least one of the
two debounced flags is observed true — stopping at the first such poll —
snapshots both flags there, and returns false (approve) whenever the
snapshotted accept flag is true (accept takes priority when both are
observed true), and true (deny) when only the snapshotted cancel flag is
true. -/
theorem c7_waitForButtonPress_amended (acc can : Nat → Bool)
    (h : ∃ t, (acc t || can t) = true) :
    ((acc (Nat.find h) || can (Nat.find h)) = true) ∧
    (∀ t, t < Nat.find h → acc t = false ∧ can t = false) ∧
    (acc (Nat.find h) = true → waitForButtonPress acc can h = false) ∧
    (acc (Nat.find h) = false →
      can (Nat.find h) = true ∧ waitForButtonPress acc can h = true) := by
  refine ⟨Nat.find_spec h, ?_, ?_, ?_⟩
  · intro t ht
    have h1 := Nat.find_min h ht
    constructor
    · cases ha : acc t
      · rfl
      · exact absurd (by simp [ha]) h1
    · cases hc : can t
      · rfl
      · exact absurd (by simp [hc]) h1
  · intro ha
    simp only [waitForButtonPress]
    rw [if_pos ha]
  · intro ha
    have hs := Nat.find_spec h
    rw [ha] at hs
    simp only [Bool.false_or] at hs
    refine ⟨hs, ?_⟩
    simp only [waitForButtonPress]
    rw [if_neg]
    simp only [Bool.not_eq_true]
    exact ha

/-- Accept-flag stream for the C7 witness: true from time 2 on. -/
def c7AccStream : Nat → Bool := fun t => decide (2 ≤ t)

/-- Cancel-flag stream for the C7 witness: never true. -/
def c7CanStream : Nat → Bool := fun _ => false

/-- Some poll of the C7 witness streams succeeds. -/
theorem c7StreamsEventually : ∃ t, (c7AccStream t || c7CanStream t) = true :=
  ⟨2, by decide⟩

/-- Witness for `c7_waitForButtonPress_amended`: with the accept flag
first observed true at time 2 and the cancel flag never true, the call
returns false (approve). -/
theorem c7_waitForButtonPress_amended_witness :
    waitForButtonPress c7AccStream c7CanStream c7StreamsEventually = false := by
  have hfind : Nat.find c7StreamsEventually = 2 := by
    rw [Nat.find_eq_iff]
    constructor
    · decide
    · intro n hn
      rcases n with _ | _ | n
      · decide
      · decide
      · omega
  have h := c7_waitForButtonPress_amended c7AccStream c7CanStream
    c7StreamsEventually
  exact h.2.2.1 (by rw [hfind]; decide)

/-- C2 counterexample: eight ticks with the accept pin held low (button
pressed) followed by one tick with the pin back high drive the accept
channel's debounce counter to 9, strictly above `DEBOUNCE_COUNT` = 8 —
the counter is not reset by the flip, so it does not stay in [0, 8]. -/
theorem c2_counterexample :
    (isrRun (fun j => decide (8 ≤ j)) (fun _ => true) 9).accept.ctr = 9 ∧
    ¬ (isrRun (fun j => decide (8 ≤ j)) (fun _ => true) 9).accept.ctr ≤
        DEBOUNCE_COUNT := by
  decide

/-- Every single debounce step keeps the 8-bit counter below 256. -/
theorem debounceStep_ctr_le (s : ButtonChannel) (pin : Bool) :
    (debounceStep s pin).ctr ≤ 255 := by
  simp only [debounceStep]
  split_ifs <;> simp only [] <;> omega

/-- C2 (amended): for every button channel and every sequence of timer
ticks, the debounce counter stays in the 8-bit range [0, 255]; whenever
it reaches `DEBOUNCE_COUNT` = 8 by an increment (that is, exactly when a
disagreeing sample arrives at counter 7) the debounced state flips, but
the flip leaves the counter at 8 rather than resetting it — only a
subsequent agreeing sample resets it to 0 — so immediately after a flip
the counter can exceed 8. -/
theorem c2_debounce_counter_amended :
    (∀ pa pc n, (isrRun pa pc n).accept.ctr ≤ 255 ∧
      (isrRun pa pc n).cancel.ctr ≤ 255) ∧
    (∀ s pin, s.ctr ≤ 255 →
      ((debounceStep s pin).btn ≠ s.btn ↔
        (pressedSample pin ≠ s.btn ∧ s.ctr = 7)) ∧
      ((debounceStep s pin).btn ≠ s.btn →
        (debounceStep s pin).ctr = DEBOUNCE_COUNT) ∧
      (pressedSample pin = s.btn → (debounceStep s pin).ctr = 0)) := by
  constructor
  · intro pa pc n
    induction n with
    | zero => exact ⟨Nat.zero_le 255, Nat.zero_le 255⟩
    | succ n _ =>
      exact ⟨debounceStep_ctr_le _ _, debounceStep_ctr_le _ _⟩
  · intro s pin hs
    obtain ⟨b, c⟩ := s
    simp only at hs
    cases b <;> cases pin <;>
      · simp only [debounceStep, pressedSample, DEBOUNCE_COUNT, Bool.and_self,
          Bool.not_false, Bool.not_true, Bool.and_false, Bool.false_and,
          Bool.and_true, Bool.true_and, Bool.false_or, Bool.or_false,
          Bool.true_or, Bool.or_true, if_true, if_false]
        constructor
        · by_cases hc : (c + 1) % 256 = 8 <;> simp [hc] <;> omega
        · constructor
          · by_cases hc : (c + 1) % 256 = 8 <;> simp [hc]
          · simp

/-- Witness for `c2_debounce_counter_amended`: a disagreeing sample at
counter 7 flips the state and leaves the counter exactly at 8. -/
theorem c2_debounce_counter_amended_witness :
    (debounceStep ⟨false, 7⟩ false).ctr = DEBOUNCE_COUNT ∧
    (isrRun (fun _ => false) (fun _ => true) 3).accept.ctr ≤ 255 := by
  have h := c2_debounce_counter_amended
  constructor
  · exact (h.2 ⟨false, 7⟩ false (by decide)).2.1
      ((h.2 ⟨false, 7⟩ false (by decide)).1.mpr ⟨by decide, rfl⟩)
  · exact (h.1 (fun _ => false) (fun _ => true) 3).1

/-- The character loop never touches the scroll position, direction or
countdown, and can only grow `max_line_size`. -/
theorem writeChars_effects (s : List Char) (st : LcdState) :
    (writeChars st s).1.scroll_pos = st.scroll_pos ∧
    (writeChars st s).1.scroll_to_left = st.scroll_to_left ∧
    (writeChars st s).1.scroll_counter = st.scroll_counter ∧
    st.max_line_size ≤ (writeChars st s).1.max_line_size := by
  induction s generalizing st with
  | nil => simp [writeChars]
  | cons c rest ih =>
    simp only [writeChars]
    split_ifs with h
    · have h2 := ih
        { st with
          current_column := st.current_column + 1
          max_line_size := max st.max_line_size (st.current_column + 1) }
      exact ⟨h2.1, h2.2.1, h2.2.2.1,
        le_trans (le_max_left _ _) h2.2.2.2⟩
    · simp

/-- One scroll tick preserves the scroll-position invariant. -/
theorem scrollTick_invariant (st : LcdState) (h : scrollInvariant st) :
    scrollInvariant (scrollTick st) := by
  obtain ⟨h1, h2⟩ := h
  unfold scrollInvariant at *
  simp only [scrollTick, NUM_COLUMNS] at *
  split_ifs <;> constructor <;> intro hm <;> simp_all <;> omega

/-- Every foreground or tick operation preserves the scroll-position
invariant. -/
theorem lcdStep_invariant (st : LcdState) (op : LcdOp)
    (h : scrollInvariant st) : scrollInvariant (lcdStep st op) := by
  cases op with
  | tick => exact scrollTick_invariant st h
  | clear => exact (by decide : scrollInvariant clearLcdState)
  | gotoLine l => exact ⟨fun hm => h.1 hm, fun hm => h.2 hm⟩
  | write s =>
    obtain ⟨e1, e2, e3, e4⟩ := writeChars_effects s st
    constructor
    · intro hm
      simp only [lcdStep, writeStringLcd] at hm ⊢
      rw [e1]
      exact h.1 (le_trans e4 hm)
    · intro hm
      simp only [lcdStep, writeStringLcd] at hm ⊢
      rw [e1]
      rcases Decidable.em (NUM_COLUMNS < st.max_line_size) with hst | hst
      · have := h.2 hst
        omega
      · have : st.scroll_pos = 0 := h.1 (by omega)
        omega

/-- The scroll-position invariant holds after any operation sequence. -/
theorem runLcd_invariant (ops : List LcdOp) : scrollInvariant (runLcd ops) := by
  suffices h : ∀ st, scrollInvariant st → scrollInvariant (ops.foldl lcdStep st) by
    exact h clearLcdState (by decide)
  induction ops with
  | nil => exact fun st h => h
  | cons op rest ih => exact fun st h => ih _ (lcdStep_invariant st op h)

/-- A tick never moves the scroll position while the widest line fits the
visible width. -/
theorem scrollTick_no_scroll (st : LcdState)
    (h : st.max_line_size ≤ NUM_COLUMNS) :
    (scrollTick st).scroll_pos = st.scroll_pos := by
  simp only [scrollTick]
  split_ifs <;> simp_all [NUM_COLUMNS] <;> omega

/-- An acting tick (countdown at 1) at the left boundary while moving
left flips the direction instead of moving. -/
theorem scrollTick_flip_left (st : LcdState) (hc : st.scroll_counter = 1)
    (hmax : NUM_COLUMNS < st.max_line_size) (hd : st.scroll_to_left = true)
    (hp : st.scroll_pos = 0) :
    (scrollTick st).scroll_to_left = false ∧
    (scrollTick st).scroll_pos = st.scroll_pos := by
  simp [scrollTick, hc, hd, hp, hmax]

/-- An acting tick (countdown at 1) at the right boundary while moving
right flips the direction instead of moving. -/
theorem scrollTick_flip_right (st : LcdState) (hc : st.scroll_counter = 1)
    (hmax : NUM_COLUMNS < st.max_line_size) (hd : st.scroll_to_left = false)
    (hp : st.scroll_pos + NUM_COLUMNS = st.max_line_size) :
    (scrollTick st).scroll_to_left = true ∧
    (scrollTick st).scroll_pos = st.scroll_pos := by
  have hp' : st.scroll_pos = st.max_line_size - NUM_COLUMNS := by omega
  simp [scrollTick, hc, hd, hp', hmax]

/-- C6: over every sequence of scheduler ticks interleaved with clear,
cursor and write operations, the scroll position stays within
[0, max_line_size − NUM_COLUMNS] whenever `max_line_size` exceeds the
visible width (and is pinned at 0 otherwise); the scroll position never
changes on a tick while `max_line_size ≤ NUM_COLUMNS`; and an acting
tick at a boundary position flips the scroll direction instead of
moving. -/
theorem c6_scroll_invariant (ops : List LcdOp) :
    scrollInvariant (runLcd ops) ∧
    ((runLcd ops).max_line_size ≤ NUM_COLUMNS →
      (scrollTick (runLcd ops)).scroll_pos = (runLcd ops).scroll_pos) ∧
    ((runLcd ops).scroll_counter = 1 →
      NUM_COLUMNS < (runLcd ops).max_line_size →
      (((runLcd ops).scroll_to_left = true → (runLcd ops).scroll_pos = 0 →
        (scrollTick (runLcd ops)).scroll_to_left = false ∧
        (scrollTick (runLcd ops)).scroll_pos = (runLcd ops).scroll_pos) ∧
      ((runLcd ops).scroll_to_left = false →
        (runLcd ops).scroll_pos + NUM_COLUMNS = (runLcd ops).max_line_size →
        (scrollTick (runLcd ops)).scroll_to_left = true ∧
        (scrollTick (runLcd ops)).scroll_pos = (runLcd ops).scroll_pos))) := by
  refine ⟨runLcd_invariant ops, scrollTick_no_scroll _, ?_⟩
  intro hc hmax
  exact ⟨scrollTick_flip_left _ hc hmax, scrollTick_flip_right _ hc hmax⟩

/-- Operation sequence reaching a right-boundary acting tick: write a
17-character line, let the pause elapse and one scroll step move the
position to the boundary, then run the countdown down to 1. -/
def c6Ops : List LcdOp :=
  LcdOp.write "seventeen chars a".toList :: List.replicate 599 LcdOp.tick

/-- While the countdown stays above zero, each tick of a run of ticks
only decrements it. -/
theorem ticks_countdown (n : Nat) (st : LcdState)
    (h1 : n < st.scroll_counter) (h2 : st.scroll_counter ≤ 65535) :
    (List.replicate n LcdOp.tick).foldl lcdStep st =
      { st with scroll_counter := st.scroll_counter - n } := by
  induction n generalizing st with
  | zero => simp
  | succ n ih =>
    rw [List.replicate_succ, List.foldl_cons]
    have hstep : lcdStep st .tick =
        { st with scroll_counter := st.scroll_counter - 1 } := by
      simp only [lcdStep, scrollTick]
      have hmod : (st.scroll_counter + 65535) % 65536 =
          st.scroll_counter - 1 := by omega
      rw [hmod, if_neg (by omega)]
    rw [hstep,
      ih { st with scroll_counter := st.scroll_counter - 1 }
        (by simp; omega) (by simp; omega)]
    have he : st.scroll_counter - 1 - n = st.scroll_counter - (n + 1) := by
      omega
    simp [he]

/-- End state of `c6Ops`: right at the scroll boundary, countdown at 1. -/
theorem c6_run_eq : runLcd c6Ops = ⟨17, 17, 1, false, 1⟩ := by
  have h1 : runLcd c6Ops =
      (List.replicate 599 LcdOp.tick).foldl lcdStep ⟨17, 17, 0, false, 450⟩ := by
    rw [c6Ops, runLcd, List.foldl_cons]
    congr 1
  rw [h1, show (599 : Nat) = 449 + 150 from rfl, List.replicate_add,
    List.foldl_append,
    ticks_countdown 449 ⟨17, 17, 0, false, 450⟩ (by decide) (by decide)]
  have h2 : ({ (⟨17, 17, 0, false, 450⟩ : LcdState) with
      scroll_counter := (⟨17, 17, 0, false, 450⟩ : LcdState).scroll_counter
        - 449 }) = ⟨17, 17, 0, false, 1⟩ := by decide
  rw [h2, show (150 : Nat) = 1 + 149 from rfl, List.replicate_add,
    List.foldl_append]
  have h3 : (List.replicate 1 LcdOp.tick).foldl lcdStep ⟨17, 17, 0, false, 1⟩ =
      ⟨17, 17, 1, false, 150⟩ := by decide
  rw [h3,
    ticks_countdown 149 ⟨17, 17, 1, false, 150⟩ (by decide) (by decide)]
  decide

/-- Witness for `c6_scroll_invariant`: after `c6Ops` the display is at
the right boundary with the countdown at 1, and the next tick flips the
direction without moving the position. -/
theorem c6_scroll_invariant_witness :
    (scrollTick (runLcd c6Ops)).scroll_to_left = true ∧
    (scrollTick (runLcd c6Ops)).scroll_pos = (runLcd c6Ops).scroll_pos := by
  have h := (c6_scroll_invariant c6Ops).2.2
    (by rw [c6_run_eq]) (by rw [c6_run_eq]; decide)
  exact h.2 (by rw [c6_run_eq]) (by rw [c6_run_eq]; decide)

/-- Unfolding equation of `stateAt`. -/
theorem stateAt_succ (pins : Nat → Bool) (n : Nat) :
    stateAt pins (n + 1) = debounceStep (stateAt pins n) (pins n) := rfl

/-- The channel counter stays below 256 along every run. -/
theorem stateAt_ctr_le (pins : Nat → Bool) (n : Nat) :
    (stateAt pins n).ctr ≤ 255 := by
  cases n with
  | zero => exact Nat.zero_le 255
  | succ n => exact debounceStep_ctr_le _ _

/-- The C guard `(btn && temp) || (!btn && !temp)` holds exactly when the
logical sample disagrees with the debounced state. -/
theorem guard_iff (s : ButtonChannel) (pin : Bool) :
    ((s.btn && pin) || (!s.btn && !pin)) = true ↔
      pressedSample pin ≠ s.btn := by
  obtain ⟨b, c⟩ := s
  cases b <;> cases pin <;> simp [pressedSample]

/-- An agreeing sample leaves the state and resets the counter. -/
theorem debounceStep_agree (s : ButtonChannel) (pin : Bool)
    (h : pressedSample pin = s.btn) : debounceStep s pin = ⟨s.btn, 0⟩ := by
  obtain ⟨b, c⟩ := s
  cases b <;> cases pin <;> simp_all [debounceStep, pressedSample]

/-- A disagreeing sample at counter 0 leaves the state and sets the
counter to 1. -/
theorem debounceStep_disagree_zero (s : ButtonChannel) (pin : Bool)
    (h : pressedSample pin ≠ s.btn) (hc : s.ctr = 0) :
    debounceStep s pin = ⟨s.btn, 1⟩ := by
  obtain ⟨b, c⟩ := s
  simp only at hc
  subst hc
  cases b <;> cases pin <;> simp_all [debounceStep, pressedSample,
    DEBOUNCE_COUNT]

/-- Inversion of a flip: a step can change the debounced state only when
the sample disagrees with it and the counter stands at exactly 7. -/
theorem debounceStep_flip_inv (s : ButtonChannel) (pin : Bool)
    (h255 : s.ctr ≤ 255) (h : (debounceStep s pin).btn ≠ s.btn) :
    pressedSample pin ≠ s.btn ∧ s.ctr = 7 := by
  simp only [debounceStep] at h
  by_cases hg : ((s.btn && pin) || (!s.btn && !pin)) = true
  · rw [if_pos hg] at h
    by_cases hc : (s.ctr + 1) % 256 = DEBOUNCE_COUNT
    · rw [if_pos hc] at h
      simp only [DEBOUNCE_COUNT] at hc
      exact ⟨(guard_iff s pin).mp hg, by omega⟩
    · rw [if_neg hc] at h
      simp at h
  · rw [if_neg hg] at h
    simp at h

/-- Inversion of a counter value in 1..7: the step's sample disagreed,
the previous counter was one less, and the state did not flip. -/
theorem debounceStep_ctr_inv (s : ButtonChannel) (pin : Bool) (k : Nat)
    (h255 : s.ctr ≤ 255) (hk1 : 1 ≤ k) (hk7 : k ≤ 7)
    (h : (debounceStep s pin).ctr = k) :
    pressedSample pin ≠ s.btn ∧ s.ctr = k - 1 ∧
    (debounceStep s pin).btn = s.btn := by
  simp only [debounceStep] at h ⊢
  by_cases hg : ((s.btn && pin) || (!s.btn && !pin)) = true
  · rw [if_pos hg] at h ⊢
    by_cases hc : (s.ctr + 1) % 256 = DEBOUNCE_COUNT
    · rw [if_pos hc] at h
      simp only [DEBOUNCE_COUNT] at hc
      simp only at h
      omega
    · rw [if_neg hc] at h ⊢
      simp only [DEBOUNCE_COUNT] at hc
      simp only at h
      exact ⟨(guard_iff s pin).mp hg, by omega, rfl⟩
  · rw [if_neg hg] at h
    simp only at h
    omega

/-- Backward chain: a counter value `k ≤ 7` is reachable only through `k`
consecutive disagreeing, non-flipping ticks. -/
theorem stateAt_ctr_chain (pins : Nat → Bool) :
    ∀ k, k ≤ 7 → ∀ n, (stateAt pins n).ctr = k →
      k ≤ n ∧ ∀ j, n - k ≤ j → j < n →
        (pressedSample (pins j) ≠ (stateAt pins j).btn ∧
          (stateAt pins j).btn = (stateAt pins n).btn) := by
  intro k
  induction k with
  | zero =>
    intro _ n _
    exact ⟨Nat.zero_le n, fun j hj1 hj2 => absurd hj2 (by omega)⟩
  | succ k ih =>
    intro hk n h
    cases n with
    | zero =>
      simp [stateAt, initChannel] at h
    | succ m =>
      rw [stateAt_succ] at h
      have h255 := stateAt_ctr_le pins m
      have hinv := debounceStep_ctr_inv (stateAt pins m) (pins m) (k + 1)
        h255 (by omega) hk h
      have hctr : (stateAt pins m).ctr = k := by
        have h2 := hinv.2.1
        omega
      have hbtn : (stateAt pins (m + 1)).btn = (stateAt pins m).btn := by
        rw [stateAt_succ]
        exact hinv.2.2
      have hm := ih (by omega) m hctr
      refine ⟨by omega, ?_⟩
      intro j hj1 hj2
      rcases Decidable.em (j = m) with hjm | hjm
      · subst hjm
        exact ⟨hinv.1, hbtn.symm⟩
      · have h1 : m - k ≤ j := by omega
        have h2 : j < m := by omega
        have h3 := hm.2 j h1 h2
        exact ⟨h3.1, h3.2.trans hbtn.symm⟩

/-- The two button channels of the ISR run are exactly the generic
single-channel run fed their own pin stream. -/
theorem isrRun_channels (pa pc : Nat → Bool) (n : Nat) :
    (isrRun pa pc n).accept = stateAt pa n ∧
    (isrRun pa pc n).cancel = stateAt pc n := by
  induction n with
  | zero => exact ⟨rfl, rfl⟩
  | succ n ih =>
    simp only [isrRun, isrTick]
    rw [ih.1, ih.2]
    exact ⟨rfl, rfl⟩

/-- C3: for every stream of raw samples fed tick-by-tick to the
scheduler — both button channels of the ISR run follow the generic
channel run (first conjunct) — the debounced state changes at a tick
only when that tick and the 7 before it (8 consecutive ticks) all
sampled a value disagreeing with the then-unchanged debounced state;
and a single disagreeing sample at a synchronised channel (counter 0)
followed by an agreeing sample resets the counter to 0 and produces no
flip. -/
theorem c3_debounce_temporal (pins : Nat → Bool) :
    (∀ pc n, (isrRun pins pc n).accept = stateAt pins n ∧
      (isrRun pc pins n).cancel = stateAt pins n) ∧
    (∀ n, (stateAt pins (n + 1)).btn ≠ (stateAt pins n).btn →
      7 ≤ n ∧ ∀ j, n - 7 ≤ j → j ≤ n →
        (pressedSample (pins j) ≠ (stateAt pins j).btn ∧
          (stateAt pins j).btn = (stateAt pins n).btn)) ∧
    (∀ n, (stateAt pins n).ctr = 0 →
      pressedSample (pins n) ≠ (stateAt pins n).btn →
      pressedSample (pins (n + 1)) = (stateAt pins (n + 1)).btn →
      (stateAt pins (n + 1)).btn = (stateAt pins n).btn ∧
      (stateAt pins (n + 2)).btn = (stateAt pins n).btn ∧
      (stateAt pins (n + 2)).ctr = 0) := by
  refine ⟨?_, ?_, ?_⟩
  · intro pc n
    exact ⟨(isrRun_channels pins pc n).1, (isrRun_channels pc pins n).2⟩
  · intro n hflip
    rw [stateAt_succ] at hflip
    have h255 := stateAt_ctr_le pins n
    have hinv := debounceStep_flip_inv (stateAt pins n) (pins n) h255 hflip
    have hchain := stateAt_ctr_chain pins 7 (le_refl 7) n hinv.2
    refine ⟨hchain.1, ?_⟩
    intro j hj1 hj2
    rcases Decidable.em (j = n) with hjn | hjn
    · subst hjn
      exact ⟨hinv.1, rfl⟩
    · exact hchain.2 j hj1 (by omega)
  · intro n h0 hdis hagr
    have e1 : stateAt pins (n + 1) = ⟨(stateAt pins n).btn, 1⟩ := by
      rw [stateAt_succ]
      exact debounceStep_disagree_zero _ _ hdis h0
    have hb1 : (stateAt pins (n + 1)).btn = (stateAt pins n).btn := by
      rw [e1]
    have e2 : stateAt pins (n + 2) = ⟨(stateAt pins (n + 1)).btn, 0⟩ := by
      rw [stateAt_succ]
      exact debounceStep_agree _ _ hagr
    refine ⟨hb1, ?_, ?_⟩
    · rw [e2]
      exact hb1
    · rw [e2]

/-- Pin stream for the C3 witness flip: held low (pressed) for the first
eight ticks, high afterwards. -/
def c3PinsA : Nat → Bool := fun j => decide (8 ≤ j)

/-- Pin stream for the C3 witness bounce: one disagreeing (low) sample at
tick 0, agreeing (high) samples afterwards. -/
def c3PinsB : Nat → Bool := fun j => decide (j ≠ 0)

/-- Witness for `c3_debounce_temporal`: the flip of `c3PinsA` at tick 7
forces a disagreeing sample at tick 0, and the single low bounce of
`c3PinsB` leaves the channel unflipped with counter 0. -/
theorem c3_debounce_temporal_witness :
    pressedSample (c3PinsA 0) ≠ (stateAt c3PinsA 0).btn ∧
    (stateAt c3PinsB 2).btn = (stateAt c3PinsB 0).btn ∧
    (stateAt c3PinsB 2).ctr = 0 := by
  refine ⟨?_, ?_, ?_⟩
  · exact (((c3_debounce_temporal c3PinsA).2.1 7 (by decide)).2 0
      (by decide) (by decide)).1
  · exact ((c3_debounce_temporal c3PinsB).2.2 0 (by decide) (by decide)
      (by decide)).2.1
  · exact ((c3_debounce_temporal c3PinsB).2.2 0 (by decide) (by decide)
      (by decide)).2.2
